import Mathlib

/-!
Shallow embedding of the TTS server in `src/main.py` (join/leave notification
audio service) and proofs about its specification.

Strings are modelled as `List Char`.  Python operations used by the source
(`str.strip`, `str.lower`, `re.sub` with the two patterns of
`sanitize_username`, `str.startswith`, slicing, `or`-chains) are embedded as
the executable functions below.  File-system state is modelled as the set of
existing paths; external engine calls (pyttsx3, gTTS, pydub) are modelled as
outcome parameters (they either produce their output file or raise).
-/

set_option maxRecDepth 20000

namespace ResoTTS

/-- Characters treated as whitespace by Python `str.strip()` (ASCII subset). -/
def isPyWhitespace (c : Char) : Bool :=
  c.toNat = 32 || c.toNat = 9 || c.toNat = 10 || c.toNat = 11 || c.toNat = 12 || c.toNat = 13

/-- Python `str.lower()` on one character (ASCII case mapping). -/
def pyLower (c : Char) : Char :=
  if 65 ≤ c.toNat && c.toNat ≤ 90 then Char.ofNat (c.toNat + 32) else c

/-- Drop the trailing run of characters satisfying `p` (the right half of a
Python strip). -/
def dropTrailing (p : Char → Bool) : List Char → List Char
  | [] => []
  | c :: cs =>
    let r := dropTrailing p cs
    if r.isEmpty && p c then [] else c :: r

/-- Python `str.strip()`: whitespace removed from both ends. -/
def pyStrip (l : List Char) : List Char :=
  dropTrailing isPyWhitespace (l.dropWhile isPyWhitespace)

/-- Python `str.strip(chars)` for the character class `p`: matching characters
removed from both ends. -/
def stripChars (p : Char → Bool) (l : List Char) : List Char :=
  dropTrailing p (l.dropWhile p)

/-- Python `s.startswith(pat)`. -/
def startsWith : List Char → List Char → Bool
  | _, [] => true
  | [], _ :: _ => false
  | c :: cs, p :: ps => c == p && startsWith cs ps

/-- The character class `a`-`z`, `0`-`9`, underscore, hyphen kept by
`sanitize_username`. -/
def isAllowed (c : Char) : Bool :=
  (97 ≤ c.toNat && c.toNat ≤ 122) || (48 ≤ c.toNat && c.toNat ≤ 57) ||
    c.toNat = 95 || c.toNat = 45

/-- First substitution of `sanitize_username` (src/main.py line 139): each
maximal run of characters outside the allowed class becomes one hyphen.  The
flag records whether the previous character was inside such a run. -/
def subDisallowedAux : Bool → List Char → List Char
  | _, [] => []
  | inRun, c :: cs =>
    if isAllowed c then c :: subDisallowedAux false cs
    else if inRun then subDisallowedAux true cs
    else '-' :: subDisallowedAux true cs

def subDisallowed (l : List Char) : List Char := subDisallowedAux false l

/-- Second substitution of `sanitize_username` (line 140): every run of two or
more hyphens collapses to a single hyphen (equivalently, every hyphen run to
one hyphen).  The flag records whether the previous character was a hyphen. -/
def collapseHyphensAux : Bool → List Char → List Char
  | _, [] => []
  | prev, c :: cs =>
    if c == '-' then
      if prev then collapseHyphensAux true cs
      else '-' :: collapseHyphensAux true cs
    else c :: collapseHyphensAux false cs

def collapseHyphens (l : List Char) : List Char := collapseHyphensAux false l

/-- No two adjacent hyphens occur in the list. -/
def noDoubleHyphen : List Char → Bool
  | [] => true
  | [_] => true
  | a :: b :: t => !(a == '-' && b == '-') && noDoubleHyphen (b :: t)

/-- Lines 138-140 of `sanitize_username`: strip and lowercase, replace runs of
disallowed characters by a hyphen, collapse hyphen runs, strip hyphens from
both ends. -/
def sanitize_core (username : List Char) : List Char :=
  stripChars (fun c => c == '-')
    (collapseHyphens (subDisallowed ((pyStrip username).map pyLower)))

/-- `sanitize_username` of src/main.py (lines 137-141) with an explicit
`max_len`: the core normalization, truncated, defaulting to `"user"` when
empty (line 141). -/
def sanitize_username_len (max_len : Nat) (username : List Char) : List Char :=
  let s := (sanitize_core username).take max_len
  if s.isEmpty then "user".toList else s

/-- `sanitize_username` at its default maximum length 64. -/
def sanitize_username (username : List Char) : List Char :=
  sanitize_username_len 64 username

/-- The closed two-value event set. -/
inductive Action
  | join
  | leave
deriving DecidableEq

/-- The string form of an action, as interpolated into filenames. -/
def Action.str : Action → List Char
  | .join => "join".toList
  | .leave => "leave".toList

/-- `build_phrase` of src/main.py (lines 143-144). -/
def build_phrase (username : List Char) (action : Action) : List Char :=
  if action = Action.join then username ++ " has joined the session.".toList
  else username ++ " has left the session.".toList

/-- `is_valid_base_url` of src/main.py (lines 146-150). -/
def is_valid_base_url (value : List Char) : Bool :=
  if value.isEmpty then false
  else
    let v := (pyStrip value).map pyLower
    startsWith v "http://".toList || startsWith v "https://".toList

/-- `build_file_url` of src/main.py (lines 152-156).  The `urljoin` call is
modelled as concatenation, which is its value on a base URL ending in a slash
and a relative path with no leading slash; the `url_for` fallback, which Flask
derives from the inbound request, is the parameter `request_derived_url`. -/
def build_file_url (rel_static_path : List Char) (base_url_override : Option (List Char))
    (request_derived_url : List Char) : List Char :=
  let static_path := "/static/".toList ++ rel_static_path.dropWhile (fun c => c == '/')
  match base_url_override with
  | some b =>
    if !b.isEmpty && is_valid_base_url b then
      (dropTrailing (fun c => c == '/') b ++ "/".toList) ++
        static_path.dropWhile (fun c => c == '/')
    else request_derived_url
  | none => request_derived_url

/-- Line 396 of src/main.py: `per_request_base or EXTERNAL_BASE_URL or None`
(a Python truthiness chain over strings). -/
def resolve_base_override (per_request cfg_default : List Char) : Option (List Char) :=
  if !per_request.isEmpty then some per_request
  else if !cfg_default.isEmpty then some cfg_default
  else none

/-- `AudioSpec` of src/main.py (lines 161-192).  The token drawn from
`uuid.uuid4()` at construction is the field `uuidToken`; `os.path.join` is
modelled with a slash separator. -/
structure AudioSpec where
  username_raw : List Char
  action : Action
  audio_dir : List Char
  uuidToken : List Char
deriving DecidableEq

def AudioSpec.username_safe (s : AudioSpec) : List Char :=
  sanitize_username s.username_raw

def AudioSpec.filename (s : AudioSpec) : List Char :=
  s.uuidToken ++ "_".toList ++ s.username_safe ++ "_".toList ++ s.action.str ++ ".ogg".toList

def AudioSpec.ogg_path (s : AudioSpec) : List Char :=
  s.audio_dir ++ "/".toList ++ s.filename

def AudioSpec.tmp_wav_path (s : AudioSpec) : List Char :=
  s.audio_dir ++ "/.tmp_".toList ++ s.uuidToken ++ ".wav".toList

def AudioSpec.tmp_mp3_path (s : AudioSpec) : List Char :=
  s.audio_dir ++ "/.tmp_".toList ++ s.uuidToken ++ ".mp3".toList

def AudioSpec.phrase (s : AudioSpec) : List Char :=
  build_phrase s.username_raw s.action

/-- A character the string form of `uuid.uuid4()` may contain: hex digit or
hyphen. -/
def isUuidChar (c : Char) : Bool :=
  (48 ≤ c.toNat && c.toNat ≤ 57) || (97 ≤ c.toNat && c.toNat ≤ 102) || c.toNat = 45

/-- The regular expression of the spec for a unique-per-request filename from
username `Alice` and action `join`: 36 uuid characters, then the literal
suffix `_alice_join.ogg`. -/
def matchesUniqueAliceJoin (l : List Char) : Bool :=
  l.length = 51 && (l.take 36).all isUuidChar && l.drop 36 == "_alice_join.ogg".toList

/-- A Python exception as observed by the handler: `ValueError` (caught as a
client error) or any other exception (caught as a server error). -/
inductive PyError
  | valueError (msg : List Char)
  | exn (msg : List Char)
deriving DecidableEq

/-- `AudioService.create_audio` of src/main.py (lines 319-326): trim and
lowercase the action, validate it against the closed set, build an `AudioSpec`
with the freshly drawn `uuid` token, and run the engine.  `gen` abstracts the
outcome of `generate_ogg` (which returns `spec.ogg_path` on success); its
failure carries the exception class, because the engine itself can raise a
`ValueError` (for example gTTS rejecting an unsupported language code at
line 299) and `create_audio` lets any exception propagate unchanged to the
handler, whose dispatch is by exception class. -/
def create_audio (gen : AudioSpec → Except PyError Unit)
    (audio_dir username action uuid : List Char) :
    Except PyError (List Char × List Char) :=
  let act := (pyStrip action).map pyLower
  if act == "join".toList || act == "leave".toList then
    let a := if act == "join".toList then Action.join else Action.leave
    let spec : AudioSpec := ⟨username, a, audio_dir, uuid⟩
    match gen spec with
    | .ok _ => .ok (spec.ogg_path, spec.filename)
    | .error e => .error e
  else .error (.valueError "Parameter action must be join or leave.".toList)

/-- The application configuration stored on `app.config` by `create_app`
(src/main.py lines 341-346). -/
structure AppConfig where
  external_base_url : List Char
  engine_name : List Char
  gtts_lang : List Char
  gtts_tld : List Char
  pyttsx3_voice : List Char
  pyttsx3_voice_index : Option Int
deriving DecidableEq

/-- The query parameters of a `/api/tts` request (absent parameter = `none`). -/
structure TtsArgs where
  username : Option (List Char)
  action : Option (List Char)
  base_url : Option (List Char)
  engine : Option (List Char)
  lang : Option (List Char)
  tld : Option (List Char)
deriving DecidableEq

/-- Which `AudioService` object serves a request: the shared process-wide one,
or a freshly constructed gTTS service with the given language and tld. -/
inductive ServiceUsed
  | shared
  | freshGtts (lang tld : List Char)
deriving DecidableEq

/-- Python `x or y` for an optional string: `y` when `x` is absent or empty. -/
def pyOr (x : Option (List Char)) (y : List Char) : List Char :=
  match x with
  | some l => if l.isEmpty then y else l
  | none => y

/-- Engine resolution of the `/api/tts` handler (src/main.py lines 371-385):
the engine name used for this request, and whether a fresh gTTS service is
constructed or the shared service reused. -/
def resolve_service (cfg : AppConfig) (req : TtsArgs) : List Char × ServiceUsed :=
  let current :=
    match req.engine with
    | some e => if e == "pyttsx3".toList || e == "gtts".toList then e else cfg.engine_name
    | none => cfg.engine_name
  if current == "gtts".toList then
    (current, ServiceUsed.freshGtts (pyOr req.lang cfg.gtts_lang) (pyOr req.tld cfg.gtts_tld))
  else
    (current, ServiceUsed.shared)

/-- A `/api/tts` response: a 200 JSON body, or an `abort` with a status. -/
inductive TtsResponse
  | success (url filename engine : List Char)
  | failure (status : Nat) (description : List Char)
deriving DecidableEq

def tts_status : TtsResponse → Nat
  | .success _ _ _ => 200
  | .failure s _ => s

/-- The `/api/tts` handler of src/main.py (lines 356-398).  `gen` abstracts the
outcome of the engine call for this request, `uuid` the token drawn inside
`AudioSpec`, and `request_derived_url` the URL Flask would build from the
inbound request.  The result carries the response, which service object was
used, and the configuration after the request (the handler only reads it).
`os.path.relpath` of the produced file against the static folder is the
relative path `audio/<filename>`.  The `except ValueError` arm (line 389)
catches every `ValueError` raised inside `create_audio` — the validation one
and any engine-raised one alike — as a 400, and the broad `except` (line 391)
catches the rest as a 500. -/
def tts_endpoint (cfg : AppConfig) (req : TtsArgs) (uuid : List Char)
    (gen : AudioSpec → Except PyError Unit)
    (audio_dir : List Char) (request_derived_url : List Char) :
    TtsResponse × ServiceUsed × AppConfig :=
  let per_request_base := pyStrip (req.base_url.getD [])
  if (req.username.getD []).isEmpty || (req.action.getD []).isEmpty then
    (TtsResponse.failure 400 "Missing username or action.".toList, ServiceUsed.shared, cfg)
  else
    let rs := resolve_service cfg req
    match create_audio gen audio_dir (req.username.getD []) (req.action.getD []) uuid with
    | .error (.valueError m) => (TtsResponse.failure 400 m, rs.2, cfg)
    | .error (.exn m) =>
        (TtsResponse.failure 500 ("TTS generation failed: ".toList ++ m), rs.2, cfg)
    | .ok res =>
        let rel_path := "audio/".toList ++ res.2
        let base_override := resolve_base_override per_request_base cfg.external_base_url
        (TtsResponse.success (build_file_url rel_path base_override request_derived_url)
          res.2 rs.1, rs.2, cfg)

/-- The `AudioSpec` that `create_audio` builds for a request that passes
validation: raw username, canonical action, directory, and the drawn token. -/
def request_spec (req : TtsArgs) (dir uuid : List Char) : AudioSpec :=
  let act := (pyStrip (req.action.getD [])).map pyLower
  ⟨req.username.getD [], if act == "join".toList then Action.join else Action.leave,
    dir, uuid⟩

/-- The validation test of `create_audio`: is the trimmed lowercased action
in the closed set? -/
def action_valid (req : TtsArgs) : Bool :=
  ((pyStrip (req.action.getD [])).map pyLower == "join".toList) ||
    ((pyStrip (req.action.getD [])).map pyLower == "leave".toList)

/-- A voice descriptor enumerated by pyttsx3 (id and name, lowercased fields
are compared for the substring match). -/
structure Voice where
  id : List Char
  name : List Char
deriving DecidableEq

/-- Python `needle in hay` for strings: `needle` occurs as a contiguous
substring of `hay`. -/
def pyIn (needle : List Char) : List Char → Bool
  | [] => needle.isEmpty
  | c :: cs => startsWith (c :: cs) needle || pyIn needle cs

/-- Does the (already lowercased) needle occur in the voice id or name? -/
def voiceMatches (needle : List Char) (v : Voice) : Bool :=
  pyIn needle (v.id.map pyLower) || pyIn needle (v.name.map pyLower)

/-- The substring scan of `PyTTSX3Generator.__init__` (lines 220-228): first
matching voice in enumeration order wins. -/
def findBySubstr (needle : List Char) : List Voice → Option (List Char)
  | [] => none
  | v :: vs => if voiceMatches needle v then some v.id else findBySubstr needle vs

/-- Voice selection of `PyTTSX3Generator.__init__` (src/main.py lines
209-234): the chosen voice id, or `none` when the engine default is kept.  An
in-range numeric index wins; otherwise a non-empty preference string is
matched case-insensitively as a substring of a voice id or name; otherwise
the default stays.  An out-of-range index or unmatched preference only logs. -/
def select_voice (voices : List Voice) (prefer_voice_substr : List Char)
    (voice_index : Option Int) : Option (List Char) :=
  let fromIdx : Option (List Char) :=
    match voice_index with
    | some i =>
        if 0 ≤ i ∧ i < (voices.length : Int) then (voices.get? i.toNat).map Voice.id
        else none
    | none => none
  match fromIdx with
  | some cid => some cid
  | none =>
      if prefer_voice_substr.isEmpty then none
      else findBySubstr (prefer_voice_substr.map pyLower) voices

/-- A file system modelled as the set of existing paths. -/
def FS : Type := List Char → Bool

def FS.write (p : List Char) (fs : FS) : FS :=
  fun q => if q == p then true else fs q

def FS.remove (p : List Char) (fs : FS) : FS :=
  fun q => if q == p then false else fs q

/-- The outcome of one external call: it returns, or raises with a message. -/
inductive StepResult
  | ok
  | raise (msg : List Char)
deriving DecidableEq

/-- The `finally` block of both `generate_ogg` methods (lines 268-274 and
304-310): if the temporary file exists, remove it, swallowing any exception
from the removal (`removeOk` is whether `os.remove` succeeds). -/
def cleanup_temp (tmp : List Char) (removeOk : Bool) (fs : FS) : FS :=
  if fs tmp then (if removeOk then FS.remove tmp fs else fs) else fs

/-- `PyTTSX3Generator.generate_ogg` (src/main.py lines 260-275).  Synthesis
(`save_to_file` + `runAndWait`, outside the try) is modelled as atomically
either producing the temporary WAV or raising with no file; loading the WAV
and exporting the OGG are the two steps inside the try; the finally block
then does best-effort cleanup of the WAV. -/
def generate_ogg_pyttsx3 (spec : AudioSpec) (synth loadStep exportStep : StepResult)
    (removeOk : Bool) (fs : FS) : Except (List Char) (List Char) × FS :=
  match synth with
  | .raise m => (Except.error m, fs)
  | .ok =>
      let fs1 := FS.write spec.tmp_wav_path fs
      match loadStep with
      | .raise m => (Except.error m, cleanup_temp spec.tmp_wav_path removeOk fs1)
      | .ok =>
          match exportStep with
          | .raise m => (Except.error m, cleanup_temp spec.tmp_wav_path removeOk fs1)
          | .ok =>
              let fs2 := FS.write spec.ogg_path fs1
              (Except.ok spec.ogg_path, cleanup_temp spec.tmp_wav_path removeOk fs2)

/-- `GTTSGenerator.generate_ogg` (src/main.py lines 296-311).  `gTTS.save`
(outside the try) atomically either produces the temporary MP3 or raises with
no file; loading the MP3 and exporting the OGG are the steps inside the try;
the finally block does best-effort cleanup of the MP3. -/
def generate_ogg_gtts (spec : AudioSpec) (saveStep loadStep exportStep : StepResult)
    (removeOk : Bool) (fs : FS) : Except (List Char) (List Char) × FS :=
  match saveStep with
  | .raise m => (Except.error m, fs)
  | .ok =>
      let fs1 := FS.write spec.tmp_mp3_path fs
      match loadStep with
      | .raise m => (Except.error m, cleanup_temp spec.tmp_mp3_path removeOk fs1)
      | .ok =>
          match exportStep with
          | .raise m => (Except.error m, cleanup_temp spec.tmp_mp3_path removeOk fs1)
          | .ok =>
              let fs2 := FS.write spec.ogg_path fs1
              (Except.ok spec.ogg_path, cleanup_temp spec.tmp_mp3_path removeOk fs2)

/-! ### Helper lemmas about the string primitives -/

theorem isAllowed_not_whitespace {c : Char} (h : isAllowed c = true) :
    isPyWhitespace c = false := by
  simp only [isAllowed, Bool.or_eq_true, Bool.and_eq_true, decide_eq_true_eq] at h
  simp only [isPyWhitespace, Bool.or_eq_false_iff, decide_eq_false_iff_not]
  omega

theorem pyLower_eq_self {c : Char} (h : isAllowed c = true) : pyLower c = c := by
  have hcond : (65 ≤ c.toNat && c.toNat ≤ 90) = false := by
    simp only [isAllowed, Bool.or_eq_true, Bool.and_eq_true, decide_eq_true_eq] at h
    simp only [Bool.and_eq_false_iff, decide_eq_false_iff_not]
    omega
  simp [pyLower, hcond]

theorem map_pyLower_eq_self {l : List Char} (h : ∀ c ∈ l, isAllowed c = true) :
    l.map pyLower = l := by
  induction l with
  | nil => rfl
  | cons c cs ih =>
      simp only [List.map_cons]
      rw [pyLower_eq_self (h c (by simp)), ih (fun x hx => h x (by simp [hx]))]

theorem dropWhile_eq_self_of_none {p : Char → Bool} {l : List Char}
    (h : ∀ c ∈ l, p c = false) : l.dropWhile p = l := by
  cases l with
  | nil => rfl
  | cons c cs =>
      rw [List.dropWhile_cons_of_neg]
      simp [h c (by simp)]

theorem dropTrailing_cons (p : Char → Bool) (c : Char) (cs : List Char) :
    dropTrailing p (c :: cs) =
      if (dropTrailing p cs).isEmpty && p c then [] else c :: dropTrailing p cs := rfl

theorem dropTrailing_eq_self_of_none {p : Char → Bool} {l : List Char}
    (h : ∀ c ∈ l, p c = false) : dropTrailing p l = l := by
  induction l with
  | nil => rfl
  | cons c cs ih =>
      have hc : p c = false := h c (by simp)
      have ih' := ih (fun x hx => h x (by simp [hx]))
      simp [dropTrailing_cons, ih', hc]

theorem dropTrailing_eq_self_of_last {p : Char → Bool} {l : List Char}
    (h : ∀ c, l.getLast? = some c → p c = false) : dropTrailing p l = l := by
  induction l with
  | nil => rfl
  | cons c cs ih =>
      cases cs with
      | nil =>
          have hc : p c = false := h c (by simp)
          simp [dropTrailing_cons, hc, dropTrailing]
      | cons d ds =>
          have ih' : dropTrailing p (d :: ds) = d :: ds :=
            ih (fun x hx => h x (by rw [List.getLast?_cons_cons]; exact hx))
          simp [dropTrailing_cons, ih']

theorem dropTrailing_prefix (p : Char → Bool) (l : List Char) :
    ∃ t, dropTrailing p l ++ t = l := by
  induction l with
  | nil => exact ⟨[], rfl⟩
  | cons c cs ih =>
      obtain ⟨t, ht⟩ := ih
      by_cases hE : ((dropTrailing p cs).isEmpty && p c) = true
      · exact ⟨c :: cs, by simp [dropTrailing_cons, hE]⟩
      · have hE' : ((dropTrailing p cs).isEmpty && p c) = false := by
          revert hE; cases ((dropTrailing p cs).isEmpty && p c) <;> simp
        refine ⟨t, ?_⟩
        rw [dropTrailing_cons, hE']
        simp only [Bool.false_eq_true, if_false, List.cons_append, ht]

theorem mem_dropTrailing {p : Char → Bool} {l : List Char} {c : Char}
    (h : c ∈ dropTrailing p l) : c ∈ l := by
  obtain ⟨t, ht⟩ := dropTrailing_prefix p l
  rw [← ht]
  exact List.mem_append_left t h

theorem head?_dropTrailing {p : Char → Bool} {l : List Char} {c : Char}
    (h : (dropTrailing p l).head? = some c) : l.head? = some c := by
  obtain ⟨t, ht⟩ := dropTrailing_prefix p l
  cases hdt : dropTrailing p l with
  | nil => rw [hdt] at h; simp at h
  | cons d ds =>
      rw [hdt] at h ht
      simp only [List.head?_cons, Option.some.injEq] at h
      rw [← ht, List.cons_append]
      simp [h]

theorem head?_dropWhile_false {p : Char → Bool} {l : List Char} {c : Char}
    (h : (l.dropWhile p).head? = some c) : p c = false := by
  induction l with
  | nil => simp at h
  | cons d ds ih =>
      by_cases hd : p d = true
      · rw [List.dropWhile_cons_of_pos hd] at h
        exact ih h
      · rw [List.dropWhile_cons_of_neg hd] at h
        simp only [List.head?_cons, Option.some.injEq] at h
        subst h
        simpa using hd

theorem mem_dropWhile {p : Char → Bool} {l : List Char} {c : Char}
    (h : c ∈ l.dropWhile p) : c ∈ l :=
  (List.dropWhile_sublist p).subset h

theorem mem_stripChars {p : Char → Bool} {l : List Char} {c : Char}
    (h : c ∈ stripChars p l) : c ∈ l :=
  mem_dropWhile (mem_dropTrailing h)

theorem head?_stripChars_false {p : Char → Bool} {l : List Char} {c : Char}
    (h : (stripChars p l).head? = some c) : p c = false :=
  head?_dropWhile_false (head?_dropTrailing h)

theorem stripChars_eq_self {p : Char → Bool} {l : List Char}
    (hhd : ∀ c, l.head? = some c → p c = false)
    (hlast : ∀ c, l.getLast? = some c → p c = false) :
    stripChars p l = l := by
  have hdw : l.dropWhile p = l := by
    cases l with
    | nil => rfl
    | cons c cs =>
        rw [List.dropWhile_cons_of_neg]
        simp [hhd c (by simp)]
  rw [stripChars, hdw]
  exact dropTrailing_eq_self_of_last hlast

theorem pyStrip_eq_self {l : List Char} (h : ∀ c ∈ l, isAllowed c = true) :
    pyStrip l = l := by
  have h' : ∀ c ∈ l, isPyWhitespace c = false :=
    fun c hc => isAllowed_not_whitespace (h c hc)
  rw [pyStrip, dropWhile_eq_self_of_none h', dropTrailing_eq_self_of_none h']

/-! ### Lemmas about the two substitutions of `sanitize_username` -/

theorem mem_subDisallowedAux {l : List Char} {b : Bool} {c : Char}
    (h : c ∈ subDisallowedAux b l) : isAllowed c = true := by
  induction l generalizing b with
  | nil => simp [subDisallowedAux] at h
  | cons d ds ih =>
      by_cases hd : isAllowed d = true
      · simp only [subDisallowedAux, hd, if_true] at h
        rcases List.mem_cons.mp h with rfl | h2
        · exact hd
        · exact ih h2
      · have hd' : isAllowed d = false := by simpa using hd
        cases b with
        | true =>
            simp only [subDisallowedAux, hd', Bool.false_eq_true, if_false, if_true] at h
            exact ih h
        | false =>
            simp only [subDisallowedAux, hd', Bool.false_eq_true, if_false] at h
            rcases List.mem_cons.mp h with rfl | h2
            · decide
            · exact ih h2

theorem subDisallowedAux_eq_self {l : List Char}
    (h : ∀ c ∈ l, isAllowed c = true) : subDisallowedAux false l = l := by
  induction l with
  | nil => rfl
  | cons d ds ih =>
      have hd := h d (by simp)
      simp [subDisallowedAux, hd, ih (fun x hx => h x (by simp [hx]))]

theorem noDoubleHyphen_tail {c : Char} {l : List Char}
    (h : noDoubleHyphen (c :: l) = true) : noDoubleHyphen l = true := by
  cases l with
  | nil => rfl
  | cons d t =>
      simp only [noDoubleHyphen, Bool.and_eq_true] at h
      exact h.2

theorem noDoubleHyphen_append_right {a b : List Char}
    (h : noDoubleHyphen (a ++ b) = true) : noDoubleHyphen b = true := by
  induction a with
  | nil => simpa using h
  | cons c cs ih => exact ih (noDoubleHyphen_tail (by simpa using h))

theorem noDoubleHyphen_append_left {a b : List Char}
    (h : noDoubleHyphen (a ++ b) = true) : noDoubleHyphen a = true := by
  induction a with
  | nil => rfl
  | cons c cs ih =>
      cases cs with
      | nil => rfl
      | cons d t =>
          simp only [List.cons_append] at h
          simp only [noDoubleHyphen, Bool.and_eq_true] at h ⊢
          refine ⟨h.1, ?_⟩
          exact ih (by simpa using h.2)

theorem noDoubleHyphen_cons_of {d : Char} {x : List Char}
    (hx : noDoubleHyphen x = true)
    (h : (d == '-') = false ∨ ∀ c, x.head? = some c → (c == '-') = false) :
    noDoubleHyphen (d :: x) = true := by
  cases x with
  | nil => rfl
  | cons e es =>
      simp only [noDoubleHyphen, Bool.and_eq_true]
      refine ⟨?_, hx⟩
      rcases h with h | h
      · simp [h]
      · have he := h e (by rfl)
        simp [he]

theorem head?_collapseHyphensAux_true {l : List Char} {c : Char}
    (h : (collapseHyphensAux true l).head? = some c) : (c == '-') = false := by
  induction l with
  | nil => simp [collapseHyphensAux] at h
  | cons d ds ih =>
      by_cases hd : (d == '-') = true
      · simp only [collapseHyphensAux, hd, if_true] at h
        exact ih h
      · have hd' : (d == '-') = false := by simpa using hd
        simp only [collapseHyphensAux, hd', Bool.false_eq_true, if_false,
          List.head?_cons, Option.some.injEq] at h
        subst h
        exact hd'

theorem collapseHyphensAux_noDH (l : List Char) :
    ∀ b, noDoubleHyphen (collapseHyphensAux b l) = true := by
  induction l with
  | nil => intro b; rfl
  | cons d ds ih =>
      intro b
      by_cases hd : (d == '-') = true
      · cases b with
        | true => simpa only [collapseHyphensAux, hd, if_true] using ih true
        | false =>
            simp only [collapseHyphensAux, hd, if_true, Bool.false_eq_true, if_false]
            exact noDoubleHyphen_cons_of (ih true)
              (Or.inr (fun c h => head?_collapseHyphensAux_true h))
      · have hd' : (d == '-') = false := by simpa using hd
        simp only [collapseHyphensAux, hd', Bool.false_eq_true, if_false]
        exact noDoubleHyphen_cons_of (ih false) (Or.inl hd')

theorem collapseHyphensAux_eq_self {l : List Char} (h : noDoubleHyphen l = true) :
    collapseHyphensAux false l = l ∧
      ((∀ c, l.head? = some c → (c == '-') = false) → collapseHyphensAux true l = l) := by
  induction l with
  | nil => exact ⟨rfl, fun _ => rfl⟩
  | cons d ds ih =>
      have hds : noDoubleHyphen ds = true := noDoubleHyphen_tail h
      obtain ⟨ih1, ih2⟩ := ih hds
      by_cases hd : (d == '-') = true
      · have hdeq : d = '-' := by simpa using hd
        subst hdeq
        have hhead : ∀ c, ds.head? = some c → (c == '-') = false := by
          intro c hc
          cases ds with
          | nil => simp at hc
          | cons e es =>
              simp only [List.head?_cons, Option.some.injEq] at hc
              subst hc
              simp only [noDoubleHyphen, Bool.and_eq_true] at h
              have h1 := h.1
              rw [Bool.not_eq_true'] at h1
              rcases Bool.and_eq_false_iff.mp h1 with h2 | h2
              · simp at h2
              · exact h2
        constructor
        · simp [collapseHyphensAux, ih2 hhead]
        · intro hx
          have := hx '-' (by rfl)
          simp at this
      · have hd' : (d == '-') = false := by simpa using hd
        constructor
        · simp [collapseHyphensAux, hd', ih1]
        · intro _
          simp [collapseHyphensAux, hd', ih1]

theorem mem_collapseHyphensAux {l : List Char} {b : Bool} {c : Char}
    (h : c ∈ collapseHyphensAux b l) : c ∈ l ∨ c = '-' := by
  induction l generalizing b with
  | nil => simp [collapseHyphensAux] at h
  | cons d ds ih =>
      by_cases hd : (d == '-') = true
      · have hdeq : d = '-' := by simpa using hd
        subst hdeq
        cases b with
        | true =>
            simp only [collapseHyphensAux, if_true, beq_self_eq_true] at h
            rcases ih h with h2 | h2
            · exact Or.inl (by simp [h2])
            · exact Or.inr h2
        | false =>
            simp only [collapseHyphensAux, beq_self_eq_true, if_true,
              Bool.false_eq_true, if_false] at h
            rcases List.mem_cons.mp h with rfl | h2
            · exact Or.inr rfl
            · rcases ih h2 with h3 | h3
              · exact Or.inl (by simp [h3])
              · exact Or.inr h3
      · have hd' : (d == '-') = false := by simpa using hd
        simp only [collapseHyphensAux, hd', Bool.false_eq_true, if_false] at h
        rcases List.mem_cons.mp h with rfl | h2
        · exact Or.inl (by simp)
        · rcases ih h2 with h3 | h3
          · exact Or.inl (by simp [h3])
          · exact Or.inr h3

theorem noDoubleHyphen_stripChars {p : Char → Bool} {l : List Char}
    (h : noDoubleHyphen l = true) : noDoubleHyphen (stripChars p l) = true := by
  have h1 : noDoubleHyphen (l.dropWhile p) = true := by
    apply noDoubleHyphen_append_right (a := l.takeWhile p)
    rw [List.takeWhile_append_dropWhile]
    exact h
  obtain ⟨t, ht⟩ := dropTrailing_prefix p (l.dropWhile p)
  rw [stripChars]
  apply noDoubleHyphen_append_left (b := t)
  rw [ht]
  exact h1

theorem noDoubleHyphen_take {l : List Char} {n : Nat}
    (h : noDoubleHyphen l = true) : noDoubleHyphen (l.take n) = true := by
  apply noDoubleHyphen_append_left (b := l.drop n)
  rw [List.take_append_drop]
  exact h

/-! ### Structure of the sanitizer output -/

theorem mem_sanitize_core {u : List Char} {c : Char} (h : c ∈ sanitize_core u) :
    isAllowed c = true := by
  have h1 := mem_stripChars h
  rcases mem_collapseHyphensAux h1 with h2 | h2
  · exact mem_subDisallowedAux h2
  · subst h2; decide

theorem noDoubleHyphen_sanitize_core (u : List Char) :
    noDoubleHyphen (sanitize_core u) = true :=
  noDoubleHyphen_stripChars (collapseHyphensAux_noDH _ false)

theorem head?_sanitize_core {u : List Char} {c : Char}
    (h : (sanitize_core u).head? = some c) : (c == '-') = false := by
  rw [sanitize_core] at h
  exact head?_stripChars_false (p := fun c => c == '-') h

/-- A string that is already in fully sanitized shape (non-empty, at most 64
characters from the allowed class, no double hyphen, no leading or trailing
hyphen) is a fixed point of `sanitize_username`. -/
theorem sanitize_fixpoint {t : List Char}
    (hne : t.isEmpty = false)
    (hlen : t.length ≤ 64)
    (hall : ∀ c ∈ t, isAllowed c = true)
    (hnd : noDoubleHyphen t = true)
    (hhd : ∀ c, t.head? = some c → (c == '-') = false)
    (hlast : ∀ c, t.getLast? = some c → (c == '-') = false) :
    sanitize_username t = t := by
  have h1 : subDisallowed t = t := subDisallowedAux_eq_self hall
  have h2 : collapseHyphens t = t := (collapseHyphensAux_eq_self hnd).1
  have h3 : stripChars (fun c => c == '-') t = t := stripChars_eq_self hhd hlast
  have hcore : sanitize_core t = t := by
    rw [sanitize_core, pyStrip_eq_self hall, map_pyLower_eq_self hall, h1, h2, h3]
  rw [sanitize_username]
  simp only [sanitize_username_len, hcore, List.take_of_length_le hlen]
  simp [hne]

/-- C3: for every input string, `sanitize_username` returns a non-empty string
of at most 64 characters drawn only from lowercase letters, digits, hyphen and
underscore, and `sanitize_username ""` is `"user"`.  The function is a plain
total Lean function, so it is pure and deterministic by construction. -/
theorem sanitize_shape (u : List Char) :
    (sanitize_username u).isEmpty = false ∧
    (sanitize_username u).length ≤ 64 ∧
    (sanitize_username u).all isAllowed = true ∧
    sanitize_username [] = "user".toList := by
  refine ⟨?_, ?_, ?_, by decide⟩ <;>
    (by_cases hE : ((sanitize_core u).take 64).isEmpty = true)
  · have ht : sanitize_username u = "user".toList := by
      rw [sanitize_username]; simp only [sanitize_username_len]; simp [hE]
    rw [ht]; decide
  · have hE' : ((sanitize_core u).take 64).isEmpty = false := by simpa using hE
    have ht : sanitize_username u = (sanitize_core u).take 64 := by
      rw [sanitize_username]; simp only [sanitize_username_len]; simp [hE']
    rw [ht]; exact hE'
  · have ht : sanitize_username u = "user".toList := by
      rw [sanitize_username]; simp only [sanitize_username_len]; simp [hE]
    rw [ht]; decide
  · have hE' : ((sanitize_core u).take 64).isEmpty = false := by simpa using hE
    have ht : sanitize_username u = (sanitize_core u).take 64 := by
      rw [sanitize_username]; simp only [sanitize_username_len]; simp [hE']
    rw [ht]; exact List.length_take_le 64 _
  · have ht : sanitize_username u = "user".toList := by
      rw [sanitize_username]; simp only [sanitize_username_len]; simp [hE]
    rw [ht]; decide
  · have hE' : ((sanitize_core u).take 64).isEmpty = false := by simpa using hE
    have ht : sanitize_username u = (sanitize_core u).take 64 := by
      rw [sanitize_username]; simp only [sanitize_username_len]; simp [hE']
    rw [ht]
    rw [List.all_eq_true]
    intro c hc
    exact mem_sanitize_core ((List.take_sublist 64 _).subset hc)

/-- C2 counterexample: `sanitize_username` is not idempotent.  On the 65
character input of 63 `a`s, then a hyphen, then one more `a`, the sanitized
form is 63 `a`s followed by a hyphen (the truncation to 64 characters cuts
after the hyphen), and sanitizing that once more strips the now-trailing
hyphen, giving a different (63 character) string. -/
theorem sanitize_idempotent_counterexample :
    sanitize_username (List.replicate 63 'a' ++ ['-', 'a']) =
        List.replicate 63 'a' ++ ['-'] ∧
    sanitize_username (List.replicate 63 'a' ++ ['-']) = List.replicate 63 'a' ∧
    (sanitize_username (sanitize_username (List.replicate 63 'a' ++ ['-', 'a'])) ==
        sanitize_username (List.replicate 63 'a' ++ ['-', 'a'])) = false := by
  refine ⟨by decide, by decide, by decide⟩

/-- C2 (amended): `sanitize_username` is idempotent on every input whose
sanitized form does not end in a hyphen.  (The only way a sanitized form ends
in a hyphen is the 64-character truncation cutting right after one; a second
application then strips that trailing hyphen.) -/
theorem sanitize_idempotent_unless_trailing_hyphen (u : List Char)
    (h : (sanitize_username u).getLast? ≠ some '-') :
    sanitize_username (sanitize_username u) = sanitize_username u := by
  by_cases hE : ((sanitize_core u).take 64).isEmpty = true
  · have ht : sanitize_username u = "user".toList := by
      rw [sanitize_username]; simp only [sanitize_username_len]; simp [hE]
    rw [ht]; decide
  · have hE' : ((sanitize_core u).take 64).isEmpty = false := by simpa using hE
    have ht : sanitize_username u = (sanitize_core u).take 64 := by
      rw [sanitize_username]; simp only [sanitize_username_len]; simp [hE']
    rw [ht] at h ⊢
    apply sanitize_fixpoint
    · exact hE'
    · exact List.length_take_le 64 _
    · intro c hc
      exact mem_sanitize_core ((List.take_sublist 64 _).subset hc)
    · exact noDoubleHyphen_take (noDoubleHyphen_sanitize_core u)
    · intro c hc
      apply head?_sanitize_core (u := u)
      rw [List.head?_take] at hc
      simpa using hc
    · intro c hc
      by_cases hcc : c = '-'
      · subst hcc; exact absurd hc h
      · simp [hcc]

/-- Witness for the amended C2 at a concrete input. -/
theorem sanitize_idempotent_witness :
    sanitize_username (sanitize_username "  Hello World!  ".toList) =
      sanitize_username "  Hello World!  ".toList :=
  sanitize_idempotent_unless_trailing_hyphen _ (by decide)

/-- C7: the spoken phrase is exactly the fixed template around the raw
(user-supplied, unsanitized) identifier, for both events, and
`AudioSpec.phrase` feeds `username_raw` (not `username_safe`) to it. -/
theorem phrase_template_raw_identifier (u : List Char) (s : AudioSpec) :
    build_phrase u Action.join = u ++ " has joined the session.".toList ∧
    build_phrase u Action.leave = u ++ " has left the session.".toList ∧
    s.phrase = build_phrase s.username_raw s.action := by
  refine ⟨rfl, rfl, rfl⟩

/-- The filename always decomposes as the uuid token followed by the literal
tail built from the sanitized name and the action. -/
theorem filename_decomposition (s : AudioSpec) :
    s.filename =
      s.uuidToken ++
        ("_".toList ++ (s.username_safe ++ ("_".toList ++ (s.action.str ++ ".ogg".toList)))) := by
  simp [AudioSpec.filename, List.append_assoc]

/-- C4: under the unique-per-request policy the filename is the uuid token,
underscore, sanitized identifier, underscore, event, `.ogg`.  For username
`Alice` and action `join` it matches 36 uuid characters followed by
`_alice_join.ogg`, and two requests with distinct 36-character generation
tokens never produce the same filename, whatever their usernames, actions and
directories. -/
theorem unique_filename_format_and_distinct
    (uuid dir : List Char) (hlen : uuid.length = 36)
    (hchars : uuid.all isUuidChar = true) :
    (AudioSpec.mk "Alice".toList Action.join dir uuid).filename =
        uuid ++ "_alice_join.ogg".toList ∧
    matchesUniqueAliceJoin (AudioSpec.mk "Alice".toList Action.join dir uuid).filename =
        true ∧
    (∀ (n₁ n₂ : List Char) (a₁ a₂ : Action) (d₁ d₂ u₂ : List Char),
        u₂.length = 36 → uuid ≠ u₂ →
        (AudioSpec.mk n₁ a₁ d₁ uuid).filename ≠ (AudioSpec.mk n₂ a₂ d₂ u₂).filename) := by
  have halice : (AudioSpec.mk "Alice".toList Action.join dir uuid).filename =
      uuid ++ "_alice_join.ogg".toList := by
    rw [filename_decomposition]
    refine congrArg (fun t => uuid ++ t) ?_
    have hs : sanitize_username "Alice".toList = "alice".toList := by decide
    simp only [AudioSpec.username_safe, Action.str, hs]
    decide
  refine ⟨halice, ?_, ?_⟩
  · rw [halice, matchesUniqueAliceJoin]
    have h1 : (uuid ++ "_alice_join.ogg".toList).length = 51 := by
      rw [List.length_append, hlen]
      decide
    have h2 : (uuid ++ "_alice_join.ogg".toList).take 36 = uuid :=
      List.take_left' hlen
    have h3 : (uuid ++ "_alice_join.ogg".toList).drop 36 = "_alice_join.ogg".toList :=
      List.drop_left' hlen
    rw [h1, h2, h3]
    simp [hchars]
  · intro n₁ n₂ a₁ a₂ d₁ d₂ u₂ hlen₂ hne heq
    apply hne
    have e1 := filename_decomposition (AudioSpec.mk n₁ a₁ d₁ uuid)
    have e2 := filename_decomposition (AudioSpec.mk n₂ a₂ d₂ u₂)
    rw [e1, e2] at heq
    have := congrArg (List.take 36) heq
    rwa [List.take_left' hlen, List.take_left' hlen₂] at this

/-- Witness for C4 at a concrete 36-character token. -/
theorem unique_filename_format_witness :
    (AudioSpec.mk "Alice".toList Action.join "static/audio".toList
        "0123456789abcdef0123456789abcdef0123".toList).filename =
      "0123456789abcdef0123456789abcdef0123".toList ++ "_alice_join.ogg".toList :=
  (unique_filename_format_and_distinct
    "0123456789abcdef0123456789abcdef0123".toList "static/audio".toList
    (by decide) (by decide)).1

/-- C10: `create_audio` trims surrounding whitespace from and lowercases the
action before validating it, so any action whose trimmed lowercased form is
`join` or `leave` is accepted — it behaves exactly as the canonical action
string would, and validation never rejects it: whenever the engine itself
raises no `ValueError`, neither does `create_audio`. -/
theorem create_audio_canonicalizes_action
    (gen : AudioSpec → Except PyError Unit) (dir u act uuid : List Char)
    (h : (pyStrip act).map pyLower = "join".toList ∨
         (pyStrip act).map pyLower = "leave".toList) :
    create_audio gen dir u act uuid =
      create_audio gen dir u ((pyStrip act).map pyLower) uuid ∧
    ((∀ s m, gen s ≠ Except.error (PyError.valueError m)) →
      ∀ m, create_audio gen dir u act uuid ≠ Except.error (PyError.valueError m)) := by
  constructor
  · rcases h with h | h
    · simp only [create_audio]
      rw [h, (by decide : (pyStrip "join".toList).map pyLower = "join".toList)]
    · simp only [create_audio]
      rw [h, (by decide : (pyStrip "leave".toList).map pyLower = "leave".toList)]
  · intro hng m
    rcases h with h | h
    · simp only [create_audio]
      rw [h]
      simp only [(by decide :
        (("join".toList == "join".toList) || ("join".toList == "leave".toList)) = true),
        if_true]
      cases hg : gen _ with
      | ok v => simp
      | error e =>
          cases e with
          | valueError m2 => exact absurd hg (hng _ m2)
          | exn m2 => simp
    · simp only [create_audio]
      rw [h]
      simp only [(by decide :
        (("leave".toList == "join".toList) || ("leave".toList == "leave".toList)) = true),
        if_true]
      cases hg : gen _ with
      | ok v => simp
      | error e =>
          cases e with
          | valueError m2 => exact absurd hg (hng _ m2)
          | exn m2 => simp

/-- Witness for C10: the action `" JOIN "` is handled like the canonical
trimmed lowercased form. -/
theorem create_audio_canonicalizes_action_witness :
    create_audio (fun _ => Except.ok ()) "d".toList "Bob".toList " JOIN ".toList "u".toList =
      create_audio (fun _ => Except.ok ()) "d".toList "Bob".toList
        ((pyStrip " JOIN ".toList).map pyLower) "u".toList :=
  (create_audio_canonicalizes_action (fun _ => Except.ok ()) "d".toList "Bob".toList
    " JOIN ".toList "u".toList (Or.inl (by decide))).1

/-- C1 counterexample: a present but invalid per-request override (`ftp://x`)
together with a valid configured default (`http://cfg.example`) resolves to
the request-derived URL, not to a URL built from the configured default: the
code skips the configured tier instead of falling through to it. -/
theorem url_resolution_invalid_override_counterexample :
    is_valid_base_url "ftp://x".toList = false ∧
    is_valid_base_url "http://cfg.example".toList = true ∧
    build_file_url "audio/a.ogg".toList
        (resolve_base_override "ftp://x".toList "http://cfg.example".toList)
        "http://req.example/static/audio/a.ogg".toList =
      "http://req.example/static/audio/a.ogg".toList ∧
    build_file_url "audio/a.ogg".toList (some "http://cfg.example".toList)
        "http://req.example/static/audio/a.ogg".toList =
      "http://cfg.example/static/audio/a.ogg".toList ∧
    ("http://req.example/static/audio/a.ogg".toList ==
        "http://cfg.example/static/audio/a.ogg".toList) = false := by
  refine ⟨by decide, by decide, by decide, by decide, by decide⟩

/-- C1 (amended): the override chain picks the per-request value whenever it
is non-empty, the configured default only when the per-request value is empty,
and no override when both are empty; `build_file_url` then uses the selected
value only if it is a valid `http(s)` base, and otherwise falls directly to
the request-derived URL — so a present but invalid per-request override skips
the configured default. -/
theorem url_resolution_tiers (rel per cfgd rdu : List Char) :
    (per ≠ [] →
      build_file_url rel (resolve_base_override per cfgd) rdu =
        build_file_url rel (some per) rdu) ∧
    (per = [] → cfgd ≠ [] →
      build_file_url rel (resolve_base_override per cfgd) rdu =
        build_file_url rel (some cfgd) rdu) ∧
    (per = [] → cfgd = [] →
      build_file_url rel (resolve_base_override per cfgd) rdu = rdu) ∧
    (∀ b, is_valid_base_url b = false → build_file_url rel (some b) rdu = rdu) ∧
    (∀ b, b ≠ [] → is_valid_base_url b = true →
      build_file_url rel (some b) rdu =
        dropTrailing (fun c => c == '/') b ++ "/".toList ++
          ("/static/".toList ++ rel.dropWhile (fun c => c == '/')).dropWhile
            (fun c => c == '/')) := by
  refine ⟨?_, ?_, ?_, ?_, ?_⟩
  · intro hp
    rw [resolve_base_override]
    simp [hp]
  · intro hp hc
    rw [resolve_base_override]
    simp [hp, hc]
  · intro hp hc
    subst hp; subst hc
    rfl
  · intro b hb
    simp [build_file_url, hb]
  · intro b hb hv
    simp [build_file_url, hb, hv, List.append_assoc]

/-- Witness for the amended C1: a valid per-request override wins even with a
valid configured default present. -/
theorem url_resolution_tiers_witness :
    build_file_url "audio/abc_join.ogg".toList
        (resolve_base_override "https://cdn.example.com".toList "http://cfg.example".toList)
        "http://req.example/x".toList =
      build_file_url "audio/abc_join.ogg".toList
        (some "https://cdn.example.com".toList) "http://req.example/x".toList :=
  (url_resolution_tiers "audio/abc_join.ogg".toList "https://cdn.example.com".toList
    "http://cfg.example".toList "http://req.example/x".toList).1 (by decide)

theorem findBySubstr_eq_none {needle : List Char} {voices : List Voice}
    (h : ∀ v ∈ voices, voiceMatches needle v = false) :
    findBySubstr needle voices = none := by
  induction voices with
  | nil => rfl
  | cons v vs ih =>
      rw [findBySubstr]
      simp [h v (by simp), ih (fun x hx => h x (by simp [hx]))]

theorem findBySubstr_first {needle : List Char} {pre post : List Voice} {v : Voice}
    (hpre : ∀ w ∈ pre, voiceMatches needle w = false)
    (hv : voiceMatches needle v = true) :
    findBySubstr needle (pre ++ v :: post) = some v.id := by
  induction pre with
  | nil =>
      rw [List.nil_append, findBySubstr]
      simp [hv]
  | cons w ws ih =>
      rw [List.cons_append, findBySubstr]
      simp [hpre w (by simp), ih (fun x hx => hpre x (by simp [hx]))]

/-- C6: offline voice-selection precedence.  A provided numeric index that is
in range wins regardless of the substring preference; an out-of-range index
is ignored (construction does not fail — selection proceeds exactly as with
no index); with no usable index, a non-empty preference is scanned
case-insensitively against voice id and name in enumeration order, first
match winning; an empty preference, or a preference matching no voice, keeps
the engine default (`none`). -/
theorem voice_selection_precedence (voices : List Voice) (prefer : List Char) :
    (∀ i : Int, 0 ≤ i ∧ i < (voices.length : Int) →
      select_voice voices prefer (some i) = (voices.get? i.toNat).map Voice.id ∧
        (voices.get? i.toNat).isSome = true) ∧
    (∀ i : Int, ¬(0 ≤ i ∧ i < (voices.length : Int)) →
      select_voice voices prefer (some i) = select_voice voices prefer none) ∧
    (prefer ≠ [] →
      select_voice voices prefer none = findBySubstr (prefer.map pyLower) voices) ∧
    (prefer = [] → select_voice voices prefer none = none) ∧
    ((∀ v ∈ voices, voiceMatches (prefer.map pyLower) v = false) →
      findBySubstr (prefer.map pyLower) voices = none) ∧
    (∀ (pre post : List Voice) (v : Voice),
      (∀ w ∈ pre, voiceMatches (prefer.map pyLower) w = false) →
      voiceMatches (prefer.map pyLower) v = true →
      findBySubstr (prefer.map pyLower) (pre ++ v :: post) = some v.id) := by
  refine ⟨?_, ?_, ?_, ?_, fun h => findBySubstr_eq_none h,
    fun pre post v hpre hv => findBySubstr_first hpre hv⟩
  · intro i h
    have hlt : i.toNat < voices.length := by omega
    rw [select_voice]
    simp only [if_pos h]
    rw [List.get?_eq_get hlt]
    exact ⟨rfl, rfl⟩
  · intro i h
    rw [select_voice, select_voice]
    simp [if_neg h]
  · intro hp
    rw [select_voice]
    simp [hp]
  · intro hp
    subst hp
    rfl

/-- Witness for C6: with two voices, a preference matching the first, and the
in-range index 1, the index wins and selects the second voice. -/
theorem voice_selection_precedence_witness :
    select_voice [Voice.mk "en_US".toList "English".toList,
        Voice.mk "fr_FR".toList "French".toList] "english".toList (some 1) =
      (([Voice.mk "en_US".toList "English".toList,
        Voice.mk "fr_FR".toList "French".toList].get? (Int.toNat 1)).map Voice.id) :=
  ((voice_selection_precedence
    [Voice.mk "en_US".toList "English".toList, Voice.mk "fr_FR".toList "French".toList]
    "english".toList).1 1 (by constructor <;> decide)).1

/-- C8: for both engines, when the request's temporary file does not already
exist and `os.remove` succeeds, the intermediate source file (WAV for
pyttsx3, MP3 for gTTS) no longer exists after `generate_ogg` returns or
raises, whatever the transcode outcome; and the returned value or propagated
exception never depends on whether the removal succeeded — a cleanup failure
is swallowed, never raised to the caller. -/
theorem generate_ogg_cleanup (spec : AudioSpec) (s l e : StepResult) (fs : FS) :
    (fs spec.tmp_wav_path = false →
      (generate_ogg_pyttsx3 spec s l e true fs).2 spec.tmp_wav_path = false) ∧
    (∀ r : Bool, (generate_ogg_pyttsx3 spec s l e r fs).1 =
      (generate_ogg_pyttsx3 spec s l e true fs).1) ∧
    (fs spec.tmp_mp3_path = false →
      (generate_ogg_gtts spec s l e true fs).2 spec.tmp_mp3_path = false) ∧
    (fs spec.tmp_mp3_path = false →
      (∀ r : Bool, (generate_ogg_gtts spec s l e r fs).1 =
        (generate_ogg_gtts spec s l e true fs).1)) := by
  refine ⟨?_, ?_, ?_, ?_⟩
  · intro h
    cases s with
    | raise m => simpa [generate_ogg_pyttsx3] using h
    | ok =>
        cases l <;> cases e <;>
          simp [generate_ogg_pyttsx3, cleanup_temp, FS.write, FS.remove]
  · intro r
    cases s <;> cases l <;> cases e <;> simp [generate_ogg_pyttsx3]
  · intro h
    cases s with
    | raise m => simpa [generate_ogg_gtts] using h
    | ok =>
        cases l <;> cases e <;>
          simp [generate_ogg_gtts, cleanup_temp, FS.write, FS.remove]
  · intro h r
    cases s <;> cases l <;> cases e <;> simp [generate_ogg_gtts]

/-- Witness for C8 on a concrete spec, empty file system and a failing
export step. -/
theorem generate_ogg_cleanup_witness :
    (generate_ogg_pyttsx3
        (AudioSpec.mk "Alice".toList Action.join "static/audio".toList "u".toList)
        StepResult.ok StepResult.ok (StepResult.raise "boom".toList) true
        (fun _ => false)).2
      (AudioSpec.mk "Alice".toList Action.join "static/audio".toList
        "u".toList).tmp_wav_path = false :=
  (generate_ogg_cleanup
    (AudioSpec.mk "Alice".toList Action.join "static/audio".toList "u".toList)
    StepResult.ok StepResult.ok (StepResult.raise "boom".toList)
    (fun _ => false)).1 rfl

/-! ### Reduction lemmas for the handler -/

theorem create_audio_invalid {gen : AudioSpec → Except PyError Unit}
    {dir u ac uuid : List Char}
    (h : (((pyStrip ac).map pyLower == "join".toList) ||
          ((pyStrip ac).map pyLower == "leave".toList)) = false) :
    create_audio gen dir u ac uuid =
      Except.error (PyError.valueError "Parameter action must be join or leave.".toList) := by
  have hne : ¬ ((((pyStrip ac).map pyLower == "join".toList) ||
      ((pyStrip ac).map pyLower == "leave".toList)) = true) := by
    intro hx
    rw [h] at hx
    exact Bool.false_ne_true hx
  simp only [create_audio]
  rw [if_neg hne]

theorem create_audio_valid_ok {gen : AudioSpec → Except PyError Unit}
    {dir u ac uuid : List Char}
    (h : (((pyStrip ac).map pyLower == "join".toList) ||
          ((pyStrip ac).map pyLower == "leave".toList)) = true)
    (hg : gen (AudioSpec.mk u
        (if (pyStrip ac).map pyLower == "join".toList then Action.join else Action.leave)
        dir uuid) = Except.ok ()) :
    create_audio gen dir u ac uuid =
      Except.ok ((AudioSpec.mk u
          (if (pyStrip ac).map pyLower == "join".toList then Action.join else Action.leave)
          dir uuid).ogg_path,
        (AudioSpec.mk u
          (if (pyStrip ac).map pyLower == "join".toList then Action.join else Action.leave)
          dir uuid).filename) := by
  simp only [create_audio]
  rw [if_pos h, hg]

theorem create_audio_valid_error {gen : AudioSpec → Except PyError Unit}
    {dir u ac uuid : List Char} {e : PyError}
    (h : (((pyStrip ac).map pyLower == "join".toList) ||
          ((pyStrip ac).map pyLower == "leave".toList)) = true)
    (hg : gen (AudioSpec.mk u
        (if (pyStrip ac).map pyLower == "join".toList then Action.join else Action.leave)
        dir uuid) = Except.error e) :
    create_audio gen dir u ac uuid = Except.error e := by
  simp only [create_audio]
  rw [if_pos h, hg]

theorem tts_endpoint_missing {cfg : AppConfig} {req : TtsArgs}
    {uuid : List Char} {gen : AudioSpec → Except PyError Unit} {dir rdu : List Char}
    (h : (((req.username.getD []).isEmpty) || ((req.action.getD []).isEmpty)) = true) :
    tts_endpoint cfg req uuid gen dir rdu =
      (TtsResponse.failure 400 "Missing username or action.".toList,
        ServiceUsed.shared, cfg) := by
  simp [tts_endpoint, h]

theorem tts_endpoint_invalid_action {cfg : AppConfig} {req : TtsArgs}
    {uuid : List Char} {gen : AudioSpec → Except PyError Unit} {dir rdu : List Char}
    (hm : (((req.username.getD []).isEmpty) || ((req.action.getD []).isEmpty)) = false)
    (hv : action_valid req = false) :
    tts_endpoint cfg req uuid gen dir rdu =
      (TtsResponse.failure 400 "Parameter action must be join or leave.".toList,
        (resolve_service cfg req).2, cfg) := by
  rw [action_valid] at hv
  simp [tts_endpoint, hm, create_audio_invalid hv]

theorem tts_endpoint_genfail {cfg : AppConfig} {req : TtsArgs}
    {uuid : List Char} {gen : AudioSpec → Except PyError Unit} {dir rdu m : List Char}
    (hm : (((req.username.getD []).isEmpty) || ((req.action.getD []).isEmpty)) = false)
    (hv : action_valid req = true)
    (hg : gen (request_spec req dir uuid) = Except.error (PyError.exn m)) :
    tts_endpoint cfg req uuid gen dir rdu =
      (TtsResponse.failure 500 ("TTS generation failed: ".toList ++ m),
        (resolve_service cfg req).2, cfg) := by
  rw [action_valid] at hv
  simp only [request_spec] at hg
  simp [tts_endpoint, hm, create_audio_valid_error hv hg]

theorem tts_endpoint_valueError {cfg : AppConfig} {req : TtsArgs}
    {uuid : List Char} {gen : AudioSpec → Except PyError Unit} {dir rdu m : List Char}
    (hm : (((req.username.getD []).isEmpty) || ((req.action.getD []).isEmpty)) = false)
    (hv : action_valid req = true)
    (hg : gen (request_spec req dir uuid) = Except.error (PyError.valueError m)) :
    tts_endpoint cfg req uuid gen dir rdu =
      (TtsResponse.failure 400 m, (resolve_service cfg req).2, cfg) := by
  rw [action_valid] at hv
  simp only [request_spec] at hg
  simp [tts_endpoint, hm, create_audio_valid_error hv hg]

theorem tts_endpoint_ok {cfg : AppConfig} {req : TtsArgs}
    {uuid : List Char} {gen : AudioSpec → Except PyError Unit} {dir rdu : List Char}
    (hm : (((req.username.getD []).isEmpty) || ((req.action.getD []).isEmpty)) = false)
    (hv : action_valid req = true)
    (hg : gen (request_spec req dir uuid) = Except.ok ()) :
    tts_endpoint cfg req uuid gen dir rdu =
      (TtsResponse.success
        (build_file_url ("audio/".toList ++ (request_spec req dir uuid).filename)
          (resolve_base_override (pyStrip (req.base_url.getD [])) cfg.external_base_url)
          rdu)
        (request_spec req dir uuid).filename
        (resolve_service cfg req).1,
       (resolve_service cfg req).2, cfg) := by
  rw [action_valid] at hv
  simp only [request_spec] at hg ⊢
  simp [tts_endpoint, hm, create_audio_valid_ok hv hg]

/-- C5 counterexample, two failures of the claim.  First, with username `Bob`
and action `JOIN` — a string not in the closed set, so the claim requires
400 — and an engine call that succeeds, the handler returns 200: the code
validates the trimmed lowercased action, not the raw one.  Second, with valid
inputs and a synthesis call that raises a `ValueError` (as gTTS does for an
unsupported user-supplied language code), the handler returns 400, not the
500 the claim requires for a synthesis failure: `except ValueError` catches
engine-raised `ValueError`s too. -/
theorem tts_action_case_counterexample :
    tts_status (tts_endpoint
        (AppConfig.mk [] "pyttsx3".toList "en".toList "com".toList [] none)
        (TtsArgs.mk (some "Bob".toList) (some "JOIN".toList) none none none none)
        "u".toList (fun _ => Except.ok ()) "static/audio".toList
        "http://r/x".toList).1 = 200 ∧
    ("JOIN".toList == "join".toList) = false ∧
    ("JOIN".toList == "leave".toList) = false ∧
    tts_status (tts_endpoint
        (AppConfig.mk [] "gtts".toList "en".toList "com".toList [] none)
        (TtsArgs.mk (some "Bob".toList) (some "join".toList) none none
          (some "zz".toList) none)
        "u".toList
        (fun _ => Except.error
          (PyError.valueError "Language not supported: zz".toList))
        "static/audio".toList "http://r/x".toList).1 = 400 := by
  refine ⟨by decide, by decide, by decide, by decide⟩

/-- C5 (amended): exhaustive, mutually exclusive partition of the handler's
responses.  400 exactly when username or action is absent or empty, or the
trimmed lowercased action is outside the closed set, or the engine call
raises a `ValueError` (the handler's `except ValueError` catches
engine-raised ones, such as gTTS rejecting an unsupported language, just like
the validation one); 500 exactly when the inputs pass validation and the
engine call raises any other exception; 200 with the url/filename/engine body
exactly when the inputs pass validation and the engine call completes — so no
successful-looking response is produced when synthesis did not complete. -/
theorem tts_status_characterization (cfg : AppConfig) (req : TtsArgs)
    (uuid : List Char) (gen : AudioSpec → Except PyError Unit)
    (dir rdu : List Char) :
    ((((req.username.getD []).isEmpty) || ((req.action.getD []).isEmpty)) = true →
      (tts_endpoint cfg req uuid gen dir rdu).1 =
        TtsResponse.failure 400 "Missing username or action.".toList) ∧
    ((((req.username.getD []).isEmpty) || ((req.action.getD []).isEmpty)) = false →
      action_valid req = false →
      (tts_endpoint cfg req uuid gen dir rdu).1 =
        TtsResponse.failure 400 "Parameter action must be join or leave.".toList) ∧
    ((((req.username.getD []).isEmpty) || ((req.action.getD []).isEmpty)) = false →
      action_valid req = true →
      ∀ m, gen (request_spec req dir uuid) = Except.error (PyError.valueError m) →
      (tts_endpoint cfg req uuid gen dir rdu).1 = TtsResponse.failure 400 m) ∧
    ((((req.username.getD []).isEmpty) || ((req.action.getD []).isEmpty)) = false →
      action_valid req = true →
      ∀ m, gen (request_spec req dir uuid) = Except.error (PyError.exn m) →
      (tts_endpoint cfg req uuid gen dir rdu).1 =
        TtsResponse.failure 500 ("TTS generation failed: ".toList ++ m)) ∧
    ((((req.username.getD []).isEmpty) || ((req.action.getD []).isEmpty)) = false →
      action_valid req = true →
      gen (request_spec req dir uuid) = Except.ok () →
      (tts_endpoint cfg req uuid gen dir rdu).1 =
        TtsResponse.success
          (build_file_url ("audio/".toList ++ (request_spec req dir uuid).filename)
            (resolve_base_override (pyStrip (req.base_url.getD []))
              cfg.external_base_url)
            rdu)
          (request_spec req dir uuid).filename
          (resolve_service cfg req).1) := by
  refine ⟨?_, ?_, ?_, ?_, ?_⟩
  · intro hm
    rw [tts_endpoint_missing hm]
  · intro hm hv
    rw [tts_endpoint_invalid_action hm hv]
  · intro hm hv m hg
    rw [tts_endpoint_valueError hm hv hg]
  · intro hm hv m hg
    rw [tts_endpoint_genfail hm hv hg]
  · intro hm hv hg
    rw [tts_endpoint_ok hm hv hg]

/-- Witness for the amended C5: a request with the username parameter absent
gets the 400 missing-parameter failure. -/
theorem tts_status_characterization_witness :
    (tts_endpoint
        (AppConfig.mk [] "pyttsx3".toList "en".toList "com".toList [] none)
        (TtsArgs.mk none (some "join".toList) none none none none)
        "u".toList (fun _ => Except.ok ()) "static/audio".toList
        "http://r/x".toList).1 =
      TtsResponse.failure 400 "Missing username or action.".toList :=
  (tts_status_characterization
    (AppConfig.mk [] "pyttsx3".toList "en".toList "com".toList [] none)
    (TtsArgs.mk none (some "join".toList) none none none none)
    "u".toList (fun _ => Except.ok ()) "static/audio".toList
    "http://r/x".toList).1 (by decide)

/-- C9 counterexample: a request that supplies the engine override `pyttsx3`
and a lang override, on a pyttsx3-configured app, is served by the shared
service object — no fresh engine or service is constructed, contrary to the
claim that any engine (or lang/tld) override gets a freshly constructed
engine and service. -/
theorem engine_override_shared_service_counterexample :
    (tts_endpoint
        (AppConfig.mk [] "pyttsx3".toList "en".toList "com".toList [] none)
        (TtsArgs.mk (some "Bob".toList) (some "join".toList) none
          (some "pyttsx3".toList) (some "fr".toList) none)
        "u".toList (fun _ => Except.ok ()) "static/audio".toList
        "http://r/x".toList).2.1 = ServiceUsed.shared := by
  decide

/-- C9 (amended): the handler never mutates the shared state — the
configuration after any request is the configuration before.  A fresh gTTS
engine and service (with the request's lang/tld overrides, falling back to
configured values) are constructed exactly when the engine resolved for the
request is `gtts`; when it resolves to pyttsx3 the shared service is used,
even if the request passed `engine=pyttsx3` or lang/tld overrides. -/
theorem engine_override_frame (cfg : AppConfig) (req : TtsArgs) (uuid : List Char)
    (gen : AudioSpec → Except PyError Unit) (dir rdu : List Char) :
    (tts_endpoint cfg req uuid gen dir rdu).2.2 = cfg ∧
    ((resolve_service cfg req).1 = "gtts".toList →
      (resolve_service cfg req).2 =
        ServiceUsed.freshGtts (pyOr req.lang cfg.gtts_lang) (pyOr req.tld cfg.gtts_tld)) ∧
    ((resolve_service cfg req).1 ≠ "gtts".toList →
      (resolve_service cfg req).2 = ServiceUsed.shared) ∧
    ((((req.username.getD []).isEmpty) || ((req.action.getD []).isEmpty)) = false →
      (tts_endpoint cfg req uuid gen dir rdu).2.1 = (resolve_service cfg req).2) := by
  have hcases : ∀ hm : (((req.username.getD []).isEmpty) ||
      ((req.action.getD []).isEmpty)) = false,
      (tts_endpoint cfg req uuid gen dir rdu).2 =
        ((resolve_service cfg req).2, cfg) := by
    intro hm
    by_cases hv : action_valid req = true
    · cases hg : gen (request_spec req dir uuid) with
      | ok v =>
          cases v
          rw [tts_endpoint_ok hm hv hg]
      | error e =>
          cases e with
          | valueError m => rw [tts_endpoint_valueError hm hv hg]
          | exn m => rw [tts_endpoint_genfail hm hv hg]
    · have hv' : action_valid req = false := by
        revert hv; cases action_valid req <;> simp
      rw [tts_endpoint_invalid_action hm hv']
  refine ⟨?_, ?_, ?_, ?_⟩
  · by_cases hm : (((req.username.getD []).isEmpty) ||
        ((req.action.getD []).isEmpty)) = true
    · rw [tts_endpoint_missing hm]
    · have hm' : (((req.username.getD []).isEmpty) ||
          ((req.action.getD []).isEmpty)) = false := by
        revert hm
        cases ((req.username.getD []).isEmpty) || ((req.action.getD []).isEmpty) <;> simp
      have := hcases hm'
      have h2 := congrArg Prod.snd this
      simpa using h2
  · intro hg
    rw [resolve_service] at hg ⊢
    by_cases hc : ((match req.engine with
        | some e => if e == "pyttsx3".toList || e == "gtts".toList then e
                    else cfg.engine_name
        | none => cfg.engine_name) == "gtts".toList) = true
    · rw [if_pos hc]
    · rw [if_neg (by simpa using hc)] at hg ⊢
      simp only at hg
      exact absurd hg (by simpa using hc)
  · intro hg
    rw [resolve_service] at hg ⊢
    by_cases hc : ((match req.engine with
        | some e => if e == "pyttsx3".toList || e == "gtts".toList then e
                    else cfg.engine_name
        | none => cfg.engine_name) == "gtts".toList) = true
    · rw [if_pos hc] at hg
      simp only at hg
      exact absurd (by simpa using hc) hg
    · rw [if_neg (by simpa using hc)]
  · intro hm
    have := hcases hm
    have h1 := congrArg Prod.fst this
    simpa using h1

/-- Witness for the amended C9 at a concrete configuration and request. -/
theorem engine_override_frame_witness :
    (tts_endpoint
        (AppConfig.mk [] "pyttsx3".toList "en".toList "com".toList [] none)
        (TtsArgs.mk (some "Bob".toList) (some "join".toList) none
          (some "pyttsx3".toList) (some "fr".toList) none)
        "u".toList (fun _ => Except.ok ()) "static/audio".toList
        "http://r/x".toList).2.2 =
      AppConfig.mk [] "pyttsx3".toList "en".toList "com".toList [] none ∧
    (tts_endpoint
        (AppConfig.mk [] "pyttsx3".toList "en".toList "com".toList [] none)
        (TtsArgs.mk (some "Bob".toList) (some "join".toList) none
          (some "pyttsx3".toList) (some "fr".toList) none)
        "u".toList (fun _ => Except.ok ()) "static/audio".toList
        "http://r/x".toList).2.1 =
      (resolve_service
        (AppConfig.mk [] "pyttsx3".toList "en".toList "com".toList [] none)
        (TtsArgs.mk (some "Bob".toList) (some "join".toList) none
          (some "pyttsx3".toList) (some "fr".toList) none)).2 :=
  ⟨(engine_override_frame
      (AppConfig.mk [] "pyttsx3".toList "en".toList "com".toList [] none)
      (TtsArgs.mk (some "Bob".toList) (some "join".toList) none
        (some "pyttsx3".toList) (some "fr".toList) none)
      "u".toList (fun _ => Except.ok ()) "static/audio".toList
      "http://r/x".toList).1,
   (engine_override_frame
      (AppConfig.mk [] "pyttsx3".toList "en".toList "com".toList [] none)
      (TtsArgs.mk (some "Bob".toList) (some "join".toList) none
        (some "pyttsx3".toList) (some "fr".toList) none)
      "u".toList (fun _ => Except.ok ()) "static/audio".toList
      "http://r/x".toList).2.2.2 (by decide)⟩

end ResoTTS
